import Mathlib

/-!
Verification development for the Kronos A-share forecasting system.

The backend serving core is embedded from the code blocks of the product
document (src/unnamed/part_000): the `Config` class, the singleton
`ModelManager` (sections 7.2 and 12.1) and the semaphore-bounded
`PredictionService` (section 7.4).  The variant-switching lifecycle manager
is not present in the sources, so it is modelled from the specification
(marked `Modelled from the spec:` below).  The frontend form logic is
embedded from src/frontend/src/components/PredictionForm.tsx.
-/

set_option maxRecDepth 4000

namespace Kronos

/-! ## Config (part_000, `config.py` block, lines 408-443) -/

namespace Config

/-- `KRONOS_MODEL = "kronos-small"` -/
def KRONOS_MODEL : String := "kronos-small"

/-- `MAX_CONTEXT = 512` -/
def MAX_CONTEXT : Nat := 512

/-- `MAX_CONCURRENT_REQUESTS = 10` -/
def MAX_CONCURRENT_REQUESTS : Nat := 10

/-- `REQUEST_TIMEOUT = 30  # 秒` -/
def REQUEST_TIMEOUT : Nat := 30

/-- `CACHE_EXPIRE = 3600  # 1小时` -/
def CACHE_EXPIRE : Nat := 3600

/-- `DEFAULT_PREDICTION_DAYS = 5` -/
def DEFAULT_PREDICTION_DAYS : Nat := 5

/-- `MAX_PREDICTION_DAYS = 10` -/
def MAX_PREDICTION_DAYS : Nat := 10

end Config

/-! ## Frontend prediction form (PredictionForm.tsx) -/

namespace Frontend

/-- The payload `onPredict` receives in `handleSubmit`
(PredictionForm.tsx lines 26-30): `code`, `prediction_days`, `start_date`.
A JavaScript string is embedded as its list of characters; the optional
start date is carried as its already-formatted `YYYY-MM-DD` text. -/
structure PredictionRequest where
  code : List Char
  prediction_days : Nat
  start_date : Option (List Char)
deriving DecidableEq

/-- The only rejection message `handleSubmit` can emit
(`message.error('股票代码必须是6位数字')`, line 22). -/
inductive FormMessage where
  | codeMustBeSixDigits
deriving DecidableEq

/-- Result of one form submission: either a request is emitted via
`onPredict`, or an error message is shown and nothing is emitted. -/
inductive SubmitOutcome where
  | emitted (req : PredictionRequest)
  | rejected (msg : FormMessage)
deriving DecidableEq

/-- The regular-expression test `/^\d{6}$/.test(code)`
(PredictionForm.tsx line 21): the whole string is exactly six characters,
each in `[0-9]`. -/
def jsTestSixDigits (code : List Char) : Bool :=
  code.length == 6 && code.all Char.isDigit

/-- The characters removed by JavaScript `String.prototype.trim`
(ECMAScript white space and line terminators). -/
def isJsWhitespace (c : Char) : Bool :=
  c == ' ' || c == '\t' || c == '\n' || c == '\r' ||
  c == '\x0b' || c == '\x0c' || c == ' ' || c == ' ' ||
  c == ' ' || c == ' ' || c == ' ' || c == ' ' ||
  c == '　' || c == '﻿'

/-- JavaScript `code.trim()`: drop leading and trailing white space. -/
def jsTrim (s : List Char) : List Char :=
  (((s.dropWhile isJsWhitespace).reverse.dropWhile isJsWhitespace)).reverse

/-- `handleSubmit` (PredictionForm.tsx lines 17-31): validate the stock
code against `/^\d{6}$/`; on failure show the error and return without
emitting; on success call `onPredict` with the trimmed code, the selected
horizon and the formatted start date. -/
def handleSubmit (code : List Char) (predictionDays : Nat)
    (startDate : Option (List Char)) : SubmitOutcome :=
  if jsTestSixDigits code then
    SubmitOutcome.emitted ⟨jsTrim code, predictionDays, startDate⟩
  else
    SubmitOutcome.rejected FormMessage.codeMustBeSixDigits

/-- The values offered by the `predictionDays` selector
(PredictionForm.tsx lines 79-86): `<Option value={3|5|7|10|14|20}>`. -/
def horizonOptions : List Nat := [3, 5, 7, 10, 14, 20]

end Frontend

/-! ## ModelManager singleton (part_000, section 7.2 block, lines 335-362) -/

namespace ModelManager

/-- State of the `ModelManager` singleton: the `_tokenizer`, `_model` and
`_predictor` attributes (each `None` until loaded; a loaded artifact is
tagged with the index of the load that created it), plus `loadCount`, the
number of times the `from_pretrained` load sequence has run.  Since the
class exposes no unload, every constructed tokenizer/model/predictor
bundle stays resident, so `loadCount` is also the resident-handle count. -/
structure MMState where
  tokenizer : Option Nat
  model : Option Nat
  predictor : Option Nat
  loadCount : Nat
deriving DecidableEq

/-- Fresh manager: all three attributes are `None`. -/
def MMState.init : MMState := ⟨none, none, none, 0⟩

/-- `load_model` (lines 346-359): `if self._predictor is None:` load the
tokenizer, the model and the predictor; otherwise do nothing. -/
def load_model (s : MMState) : MMState :=
  if s.predictor.isSome then s
  else
    { tokenizer := some s.loadCount
      model := some s.loadCount
      predictor := some s.loadCount
      loadCount := s.loadCount + 1 }

/-- `get_predictor` (lines 361-362): returns `self._predictor`. -/
def get_predictor (s : MMState) : Option Nat := s.predictor

/-- The `model_loaded` flag of the `/api/model/status` payload
(part_000 lines 196-205): whether a predictor is resident. -/
def model_loaded (s : MMState) : Bool := s.predictor.isSome

/-- Number of resident model handles: every load constructs one
tokenizer+model+predictor bundle and nothing ever destroys one. -/
def residentHandles (s : MMState) : Nat := s.loadCount

end ModelManager

/-! ## PredictionService admission control (part_000, section 7.4 block,
lines 446-495)

`predict_stock` brackets its whole body in `async with self.semaphore`
where `self.semaphore = asyncio.Semaphore(Config.MAX_CONCURRENT_REQUESTS)`.
We model a population of concurrent `predict_stock` calls as a labelled
transition system.  Each call is either suspended at the `async with`
(waiting), inside the `with` block (running, holding one admission slot),
or finished (done, slot released).  `asyncio.Semaphore.acquire` in the
source has no timeout attached — in particular `Config.REQUEST_TIMEOUT` is
never used by `predict_stock` — so the only transitions are: acquire when
the running population is below capacity, finish (the `try` body returns,
or any exception is wrapped by the `except` branch and re-raised), and the
passage of time. -/

namespace Svc

/-- Python-level errors that can cross `predict_stock`:
`ValueError("模型未加载")` from the body, an arbitrary failure from
`predictor.predict`, and the `except` branch's
`Exception(f"预测失败: {str(e)}")` wrapper. -/
inductive PyError where
  | valueErrorModelNotLoaded
  | predictorRaised (code : Nat)
  | predictionFailed (inner : PyError)
deriving DecidableEq

/-- How one `predict_stock` call can end.  `timedOut` belongs to the
spec's error taxonomy; it is included so that its absence is expressible —
no transition below produces it, because the source attaches no timeout to
the semaphore wait or to the dispatched work. -/
inductive ReqOutcome where
  | ok (forecast : Nat)
  | failed (e : PyError)
  | timedOut
deriving DecidableEq

/-- Where one concurrent `predict_stock` call currently stands. -/
inductive ReqPhase where
  | waiting
  | running
  | done (out : ReqOutcome)
deriving DecidableEq

def isWaiting : ReqPhase → Bool
  | ReqPhase.waiting => true
  | _ => false

def isRunning : ReqPhase → Bool
  | ReqPhase.running => true
  | _ => false

def isDone : ReqPhase → Bool
  | ReqPhase.done _ => true
  | _ => false

/-- Global state of the admission controller: the semaphore capacity, a
clock (seconds), the instrumented totals of slot acquisitions and slot
releases, and the phase of every issued call. -/
structure SvcState where
  cap : Nat
  clock : Nat
  acquired : Nat
  released : Nat
  reqs : List ReqPhase
deriving DecidableEq

/-- `n` concurrent `predict_stock` calls issued against capacity `cap`,
all initially suspended at `async with self.semaphore`. -/
def SvcState.start (cap n : Nat) : SvcState :=
  ⟨cap, 0, 0, 0, List.replicate n ReqPhase.waiting⟩

/-- Number of calls currently holding an admission slot. -/
def runningCount (l : List ReqPhase) : Nat := l.countP isRunning

def waitingCount (l : List ReqPhase) : Nat := l.countP isWaiting

def doneCount (l : List ReqPhase) : Nat := l.countP isDone

/-- One interleaving step of the concurrent system.

* `acquire`: a waiting call obtains a slot, allowed only while fewer than
  `cap` calls hold one (`asyncio.Semaphore` semantics); no alternative
  timed transition exists for a waiting call.
* `finishOk`: the `try` body returns a forecast; leaving the `async with`
  block releases the slot.
* `finishErr`: some exception `e` is raised in the body; the `except`
  branch wraps it as `Exception(f"预测失败: ...")` and re-raises; leaving
  the `async with` block still releases the slot.
* `tick`: one second passes; no call's phase depends on the clock. -/
inductive Step : SvcState → SvcState → Prop where
  | acquire (cap clock a r : Nat) (l1 l2 : List ReqPhase) :
      runningCount (l1 ++ ReqPhase.waiting :: l2) < cap →
      Step ⟨cap, clock, a, r, l1 ++ ReqPhase.waiting :: l2⟩
        ⟨cap, clock, a + 1, r, l1 ++ ReqPhase.running :: l2⟩
  | finishOk (cap clock a r : Nat) (l1 l2 : List ReqPhase) (f : Nat) :
      Step ⟨cap, clock, a, r, l1 ++ ReqPhase.running :: l2⟩
        ⟨cap, clock, a, r + 1, l1 ++ ReqPhase.done (ReqOutcome.ok f) :: l2⟩
  | finishErr (cap clock a r : Nat) (l1 l2 : List ReqPhase) (e : PyError) :
      Step ⟨cap, clock, a, r, l1 ++ ReqPhase.running :: l2⟩
        ⟨cap, clock, a, r + 1,
          l1 ++ ReqPhase.done (ReqOutcome.failed
            (PyError.predictionFailed e)) :: l2⟩
  | tick (cap clock a r : Nat) (q : List ReqPhase) :
      Step ⟨cap, clock, a, r, q⟩ ⟨cap, clock + 1, a, r, q⟩

/-- Reachability by any finite interleaving. -/
inductive Reach : SvcState → SvcState → Prop where
  | refl (s : SvcState) : Reach s s
  | head {s t u : SvcState} : Step s t → Reach t u → Reach s u

/-- The inductive invariant of the admission controller. -/
def SvcInv (cap n : Nat) (s : SvcState) : Prop :=
  s.cap = cap ∧ s.reqs.length = n ∧
  runningCount s.reqs ≤ cap ∧
  s.acquired = s.released + runningCount s.reqs ∧
  ∀ p ∈ s.reqs, p ≠ ReqPhase.done ReqOutcome.timedOut

/-- The concrete run used against claim C3: capacity 10, eleven concurrent
calls, the first ten admitted, 31 seconds elapsed; the eleventh call is
still suspended at the semaphore. -/
def stuckState : SvcState :=
  ⟨10, 31, 10, 0,
    List.replicate 10 ReqPhase.running ++ [ReqPhase.waiting]⟩

end Svc

/-! ## Sequential predict path (part_000, section 7.4 block, lines 451-495)

One uncontended `predict_stock` call, followed through `_async_predict`
into `_sync_predict`, with instrumented counters for slot acquisitions,
slot releases and predictor invocations.  The body consults no cache and
performs no input-length validation: neither appears anywhere in
`predict_stock`, `_async_predict` or `_sync_predict`. -/

namespace Seq

/-- One daily OHLCV row of the input series (part_000 section 4.3). -/
structure Row where
  openPrice : Nat
  highPrice : Nat
  lowPrice : Nat
  closePrice : Nat
  volume : Nat
deriving DecidableEq

/-- One row of the forecast output (part_000 section 4.3): per-period
open/high/low/close plus a confidence score. -/
structure PredRow where
  openPrice : Nat
  highPrice : Nat
  lowPrice : Nat
  closePrice : Nat
  confidence : Nat
deriving DecidableEq

/-- The `stock_data` dictionary `_get_stock_data` returns (used at
part_000 lines 484-492): the dataframe plus past and future timestamps. -/
structure StockData where
  data : List Row
  timestamps : List Nat
  future_timestamps : List Nat
deriving DecidableEq

/-- The `KronosPredictor` handle: constructed with `max_context=512`
(part_000 lines 353-358); its numerical `predict` method is an opaque
function from the input dataframe and `pred_len` to a forecast. -/
structure Predictor where
  max_context : Nat
  predictFn : List Row → Nat → List PredRow

/-- Errors of the spec's `predict` taxonomy as observable from
`predict_stock`.  `inputTooLong` and `timeout` are included so that their
absence is expressible: no code path in the source produces either. -/
inductive SvcError where
  | wrappedFailure (inner : Svc.PyError)
  | inputTooLong
  | timeout
deriving DecidableEq

/-- Instrumented counters for one run of the service. -/
structure SeqTrace where
  slotAcquisitions : Nat
  slotReleases : Nat
  predictorInvocations : Nat
deriving DecidableEq

/-- `_sync_predict` (part_000 lines 482-494): fetch the stock data and
invoke `predictor.predict(df=..., pred_len=days, T=1.0, top_p=0.9,
sample_count=1)` unconditionally — the series length is never compared
against the context length. -/
def _sync_predict (p : Predictor) (sd : StockData) (days : Nat) :
    List PredRow :=
  p.predictFn sd.data days

/-- `predict_stock` (part_000 lines 456-469) run without contention:
enter `async with self.semaphore` (one slot acquired), get the shared
predictor, raise `ValueError("模型未加载")` if it is `None` — wrapped by
the `except` branch into `Exception("预测失败: ...")` — otherwise run
`_async_predict`/`_sync_predict`; leaving the `async with` block releases
the slot on both exit paths.  There is no cache lookup before acquiring
the slot and no cache store after. -/
def predict_stock_once (predictor : Option Predictor) (sd : StockData)
    (code : String) (days : Nat) (t : SeqTrace) :
    Except SvcError (List PredRow) × SeqTrace :=
  let t1 : SeqTrace := { t with slotAcquisitions := t.slotAcquisitions + 1 }
  match predictor with
  | none =>
      (Except.error (SvcError.wrappedFailure
          (Svc.PyError.predictionFailed Svc.PyError.valueErrorModelNotLoaded)),
       { t1 with slotReleases := t1.slotReleases + 1 })
  | some p =>
      let t2 : SeqTrace :=
        { t1 with predictorInvocations := t1.predictorInvocations + 1 }
      (Except.ok (_sync_predict p sd days),
       { t2 with slotReleases := t2.slotReleases + 1 })

/-- A 600-row input series: longer than `Config.MAX_CONTEXT = 512`. -/
def longSeries : List Row := List.replicate 600 ⟨0, 0, 0, 0, 0⟩

/-- A concrete predictor with the source's `max_context=512` whose
numerical output is a fixed forecast of the requested length. -/
def concretePredictor : Predictor :=
  ⟨512, fun _df days => List.replicate days ⟨0, 0, 0, 0, 0⟩⟩

end Seq

/-! ## Variant-switching lifecycle manager (modelled from the spec)

The repository's lifecycle manager
(`backend/app/services/model_manager.py`, described by the README as the
singleton supporting model switching, and driven by the frontend's
ModelStatus switcher) is not among the sources; only the product
document's load-once singleton is.  The switching behaviour is therefore
modelled from the specification, sections 3, 4.1, 6 and 7. -/

namespace Lifecycle

/-- Modelled from the spec: `LifecycleState` (§3) — one of `Unloaded`,
`Loading(variantId)`, `Ready(variantId)`, `Switching(from, to)`,
`Failed(variantId)`. -/
inductive LState where
  | unloaded
  | loading (v : String)
  | ready (v : String)
  | switching (a b : String)
  | failed (v : String)
deriving DecidableEq

/-- Modelled from the spec: a `ModelHandle` (§3) — the resident
tokenizer+model+predictor bundle for exactly one variant, tagged with a
fresh id. -/
structure Handle where
  variant : String
  hid : Nat
deriving DecidableEq

/-- Modelled from the spec: the `VariantCatalog` (§3) — the static
variant identifiers (the ids the ModelStatus switcher offers:
kronos-mini, kronos-small, kronos-base). -/
def catalog : List String := ["kronos-mini", "kronos-small", "kronos-base"]

/-- Modelled from the spec: the lifecycle manager's state — its phase,
the resident handles (tracked as a list so that "at most one resident" is
a theorem rather than a typing artifact), and a fresh-id counter. -/
structure LMState where
  phase : LState
  resident : List Handle
  nextId : Nat
deriving DecidableEq

/-- Process start: `Unloaded`, nothing resident. -/
def LMState.start : LMState := ⟨LState.unloaded, [], 0⟩

/-- Modelled from the spec: the atomic steps of the lifecycle state
machine (§4.1, §4.5-style transitions).  A switch proceeds through
`Switching`: first the old handle is unloaded, only then is the new one
loaded, and only with the new handle resident does the phase become
`Ready(new)`.  A failed load leaves no model resident (§7: cleanup runs
before transitioning to `Failed`). -/
inductive LStep : LMState → LMState → Prop where
  | beginLoad (v : String) (rs : List Handle) (n : Nat) :
      v ∈ catalog →
      LStep ⟨LState.unloaded, rs, n⟩ ⟨LState.loading v, rs, n⟩
  | finishLoad (v : String) (n : Nat) :
      LStep ⟨LState.loading v, [], n⟩
        ⟨LState.ready v, [⟨v, n⟩], n + 1⟩
  | loadFailed (v : String) (rs : List Handle) (n : Nat) :
      LStep ⟨LState.loading v, rs, n⟩ ⟨LState.failed v, [], n⟩
  | beginSwitch (a b : String) (rs : List Handle) (n : Nat) :
      b ∈ catalog →
      LStep ⟨LState.ready a, rs, n⟩ ⟨LState.switching a b, rs, n⟩
  | switchUnload (a b : String) (h : Handle) (rs : List Handle) (n : Nat) :
      LStep ⟨LState.switching a b, h :: rs, n⟩
        ⟨LState.switching a b, rs, n⟩
  | switchLoad (a b : String) (n : Nat) :
      LStep ⟨LState.switching a b, [], n⟩
        ⟨LState.ready b, [⟨b, n⟩], n + 1⟩
  | switchFailed (a b : String) (n : Nat) :
      LStep ⟨LState.switching a b, [], n⟩ ⟨LState.failed b, [], n⟩
  | reload (v : String) (rs : List Handle) (n : Nat) :
      LStep ⟨LState.failed v, rs, n⟩ ⟨LState.loading v, rs, n⟩

/-- Reachability through lifecycle transitions. -/
inductive LReach : LMState → LMState → Prop where
  | refl (s : LMState) : LReach s s
  | head {s t u : LMState} : LStep s t → LReach t u → LReach s u

/-- The lifecycle invariant: at most one handle resident, and in
`Ready(v)` every resident handle belongs to `v`. -/
def LInv (s : LMState) : Prop :=
  s.resident.length ≤ 1 ∧
  ∀ v : String, s.phase = LState.ready v → ∀ h ∈ s.resident, h.variant = v

/-- Modelled from the spec: whether a lifecycle transition is in
progress (`Loading` or `Switching`). -/
def inTransition : LState → Bool
  | LState.loading _ => true
  | LState.switching _ _ => true
  | _ => false

/-- The currently ready variant, if any. -/
def currentVariant : LState → Option String
  | LState.ready v => some v
  | _ => none

/-- Modelled from the spec: the error taxonomy of `switchVariant`
(§6, §7). -/
inductive SwitchError where
  | invalidVariant
  | busy
  | loadFailed
deriving DecidableEq

/-- Modelled from the spec: the success payload
`{previousVariant, downloadOccurred}` (§6). -/
structure SwitchOk where
  previousVariant : Option String
  downloadOccurred : Bool
deriving DecidableEq

/-- `status()` (§4.1): non-blocking, side-effect-free read of the
lifecycle state. -/
def status (s : LMState) : LState := s.phase

/-- Modelled from the spec (§4.1): `switchTo(variantId)` viewed at the
request surface, atomic under the exclusive lock.  It fails with
`InvalidVariant` if the identifier is not in the catalog, with `Busy` —
immediately, leaving the state untouched, with no queue to join — if
another transition is in progress; otherwise it unloads the current
handle, loads the new variant (`download` records whether artifacts were
fetched remotely; `loadOk` is the external load outcome) and ends
`Ready(variantId)`, or `Failed` with no model resident. -/
def switchVariant (s : LMState) (v : String) (download loadOk : Bool) :
    Except SwitchError SwitchOk × LMState :=
  if v ∈ catalog then
    if inTransition s.phase then (Except.error SwitchError.busy, s)
    else if loadOk then
      (Except.ok ⟨currentVariant s.phase, download⟩,
       ⟨LState.ready v, [⟨v, s.nextId⟩], s.nextId + 1⟩)
    else
      (Except.error SwitchError.loadFailed,
       ⟨LState.failed v, [], s.nextId⟩)
  else (Except.error SwitchError.invalidVariant, s)

end Lifecycle

-- ===== Theorems =====

namespace Frontend

theorem dropWhile_eq_self_of_not (p : Char → Bool) (s : List Char)
    (h : ∀ c ∈ s, p c = false) : s.dropWhile p = s := by
  cases s with
  | nil => rfl
  | cons a t =>
      have ha : p a = false := h a (List.mem_cons_self a t)
      simp [List.dropWhile, ha]

theorem digit_not_jsWhitespace (c : Char) (h : c.isDigit = true) :
    isJsWhitespace c = false := by
  by_contra hne
  have hws : isJsWhitespace c = true := by
    cases hw : isJsWhitespace c
    · exact absurd hw hne
    · rfl
  simp only [isJsWhitespace, Bool.or_eq_true, beq_iff_eq] at hws
  rcases hws with ((((((((((((h1 | h1) | h1) | h1) | h1) | h1) | h1) | h1) |
      h1) | h1) | h1) | h1) | h1) | h1 <;>
    (subst h1; exact absurd h (by decide))

theorem jsTrim_of_digits (s : List Char) (h : ∀ c ∈ s, c.isDigit = true) :
    jsTrim s = s := by
  have h1 : s.dropWhile isJsWhitespace = s :=
    dropWhile_eq_self_of_not _ s fun c hc => digit_not_jsWhitespace c (h c hc)
  have h2 : s.reverse.dropWhile isJsWhitespace = s.reverse := by
    refine dropWhile_eq_self_of_not _ _ fun c hc => ?_
    exact digit_not_jsWhitespace c (h c (List.mem_reverse.mp hc))
  simp [jsTrim, h1, h2]

theorem jsTestSixDigits_spec (code : List Char)
    (h : jsTestSixDigits code = true) :
    code.length = 6 ∧ ∀ c ∈ code, c.isDigit = true := by
  simp only [jsTestSixDigits, Bool.and_eq_true, beq_iff_eq, List.all_eq_true]
    at h
  exact ⟨h.1, h.2⟩

/-- Claim C9: every form submission that emits a prediction request emits
a stock code of exactly six decimal digits (the submitted code itself,
which trimming leaves unchanged); a submitted code failing the six-digit
test is rejected with the error message and no request is emitted. -/
theorem C9_form_emits_only_six_digit_codes :
    (∀ (code : List Char) (days : Nat) (sd : Option (List Char))
        (req : PredictionRequest),
        handleSubmit code days sd = SubmitOutcome.emitted req →
        req.code.length = 6 ∧ (∀ c ∈ req.code, c.isDigit = true) ∧
          req.code = code) ∧
    (∀ (code : List Char) (days : Nat) (sd : Option (List Char)),
        jsTestSixDigits code = false →
        handleSubmit code days sd =
          SubmitOutcome.rejected FormMessage.codeMustBeSixDigits) := by
  constructor
  · intro code days sd req hemit
    unfold handleSubmit at hemit
    by_cases hv : jsTestSixDigits code = true
    · obtain ⟨hlen, hdig⟩ := jsTestSixDigits_spec code hv
      have htrim : jsTrim code = code := jsTrim_of_digits code hdig
      rw [if_pos hv] at hemit
      cases hemit
      refine ⟨?_, ?_, ?_⟩
      · show (jsTrim code).length = 6
        simp only [htrim]; exact hlen
      · show ∀ c ∈ jsTrim code, c.isDigit = true
        simp only [htrim]; exact hdig
      · show jsTrim code = code
        exact htrim
    · rw [if_neg hv] at hemit
      cases hemit
  · intro code days sd hv
    unfold handleSubmit
    rw [if_neg (by simp [hv])]

/-- Witness for C9 at concrete inputs: `"600000"` is emitted as six
digits, `"60000a"` is rejected. -/
theorem C9_witness :
    (['6', '0', '0', '0', '0', '0'] : List Char).length = 6 ∧
    handleSubmit ['6', '0', '0', '0', '0', 'a'] 5 none =
      SubmitOutcome.rejected FormMessage.codeMustBeSixDigits := by
  constructor
  · exact (C9_form_emits_only_six_digit_codes.1 ['6', '0', '0', '0', '0', '0']
      5 none ⟨['6', '0', '0', '0', '0', '0'], 5, none⟩ (by decide)).1
  · exact C9_form_emits_only_six_digit_codes.2 ['6', '0', '0', '0', '0', 'a']
      5 none (by decide)

/-- Claim C10: the horizon selector offers exactly 3, 5, 7, 10, 14 and 20
trading days, and a user selection of 14 (a listed option) makes the form
emit a request whose `prediction_days` exceeds `Config.MAX_PREDICTION_DAYS`
(10). -/
theorem C10_horizon_options_exceed_configured_max :
    horizonOptions = [3, 5, 7, 10, 14, 20] ∧
    (14 ∈ horizonOptions ∧ 20 ∈ horizonOptions) ∧
    Config.MAX_PREDICTION_DAYS < 14 ∧
    handleSubmit ['6', '0', '0', '0', '0', '0'] 14 none =
      SubmitOutcome.emitted ⟨['6', '0', '0', '0', '0', '0'], 14, none⟩ := by
  refine ⟨rfl, by decide, by decide, by decide⟩

end Frontend

namespace ModelManager

/-- Claim C8: `load_model` is idempotent.  After a first call on the fresh
manager the model is loaded and exactly one handle is resident; any later
call while loaded is a no-op, performing no duplicate load and leaving the
state (hence the resident handle) unchanged. -/
theorem C8_load_model_idempotent :
    model_loaded (load_model MMState.init) = true ∧
    residentHandles (load_model MMState.init) = 1 ∧
    (∀ s : MMState, model_loaded s = true → load_model s = s) ∧
    (∀ s : MMState, load_model (load_model s) = load_model s) := by
  refine ⟨rfl, rfl, ?_, ?_⟩
  · intro s hs
    unfold load_model
    rw [if_pos]
    simpa [model_loaded] using hs
  · intro s
    unfold load_model
    by_cases hp : s.predictor.isSome
    · simp [hp]
    · simp [hp]

/-- Witness for C8: a second `load_model` on the already-loaded fresh
manager changes nothing. -/
theorem C8_witness :
    load_model (load_model MMState.init) = load_model MMState.init :=
  C8_load_model_idempotent.2.2.1 (load_model MMState.init) (by decide)

end ModelManager

namespace Svc

theorem countP_middle_pos (p : ReqPhase → Bool) (l1 l2 : List ReqPhase)
    (x : ReqPhase) (hx : p x = true) :
    (l1 ++ x :: l2).countP p = l1.countP p + l2.countP p + 1 := by
  rw [List.countP_append, List.countP_cons, hx]
  simp [Nat.add_assoc]

theorem countP_middle_neg (p : ReqPhase → Bool) (l1 l2 : List ReqPhase)
    (x : ReqPhase) (hx : p x = false) :
    (l1 ++ x :: l2).countP p = l1.countP p + l2.countP p := by
  rw [List.countP_append, List.countP_cons, hx]
  simp

theorem countP_replicate_pos (p : ReqPhase → Bool) (k : Nat) (x : ReqPhase)
    (hx : p x = true) : (List.replicate k x).countP p = k := by
  induction k with
  | zero => simp
  | succ k ih => rw [List.replicate_succ, List.countP_cons, hx, ih]; simp

theorem countP_replicate_neg (p : ReqPhase → Bool) (k : Nat) (x : ReqPhase)
    (hx : p x = false) : (List.replicate k x).countP p = 0 := by
  induction k with
  | zero => simp
  | succ k ih => rw [List.replicate_succ, List.countP_cons, hx, ih]; simp

theorem SvcInv_mk (cap n c k a r : Nat) (q : List ReqPhase) :
    SvcInv cap n ⟨c, k, a, r, q⟩ ↔
      (c = cap ∧ q.length = n ∧ q.countP isRunning ≤ cap ∧
        a = r + q.countP isRunning ∧
        ∀ p ∈ q, p ≠ ReqPhase.done ReqOutcome.timedOut) := Iff.rfl

theorem mem_middle_of_side {l1 l2 : List ReqPhase} {x p : ReqPhase}
    (h : p ∈ l1 ∨ p ∈ l2) : p ∈ l1 ++ x :: l2 := by
  rcases h with h | h
  · exact List.mem_append.mpr (Or.inl h)
  · exact List.mem_append.mpr (Or.inr (List.mem_cons.mpr (Or.inr h)))

theorem SvcInv_finish (cap n cap0 clock a r : Nat) (l1 l2 : List ReqPhase)
    (o : ReqOutcome) (ho : o ≠ ReqOutcome.timedOut)
    (hs : SvcInv cap n ⟨cap0, clock, a, r, l1 ++ ReqPhase.running :: l2⟩) :
    SvcInv cap n ⟨cap0, clock, a, r + 1, l1 ++ ReqPhase.done o :: l2⟩ := by
  rw [SvcInv_mk] at hs ⊢
  obtain ⟨hc, hl, hr, ha, hnt⟩ := hs
  have e1 := countP_middle_pos isRunning l1 l2 ReqPhase.running rfl
  have e2 := countP_middle_neg isRunning l1 l2 (ReqPhase.done o) rfl
  refine ⟨hc, ?_, ?_, ?_, ?_⟩
  · simp only [List.length_append, List.length_cons] at hl ⊢
    omega
  · omega
  · omega
  · intro p hp
    rcases List.mem_append.mp hp with h1 | h2
    · exact hnt p (List.mem_append.mpr (Or.inl h1))
    · rcases List.mem_cons.mp h2 with rfl | h3
      · simp only [ne_eq, ReqPhase.done.injEq]
        exact ho
      · exact hnt p (mem_middle_of_side (Or.inr h3))

theorem step_preserves_inv (cap n : Nat) {s t : SvcState}
    (hst : Step s t) (hs : SvcInv cap n s) : SvcInv cap n t := by
  cases hst with
  | acquire cap0 clock a r l1 l2 hlt =>
      rw [SvcInv_mk] at hs ⊢
      obtain ⟨hc, hl, hr, ha, hnt⟩ := hs
      have e1 := countP_middle_neg isRunning l1 l2 ReqPhase.waiting rfl
      have e2 := countP_middle_pos isRunning l1 l2 ReqPhase.running rfl
      have hlt2 : (l1 ++ ReqPhase.waiting :: l2).countP isRunning < cap := by
        rw [← hc]
        exact hlt
      refine ⟨hc, ?_, ?_, ?_, ?_⟩
      · simp only [List.length_append, List.length_cons] at hl ⊢
        omega
      · omega
      · omega
      · intro p hp
        rcases List.mem_append.mp hp with h1 | h2
        · exact hnt p (List.mem_append.mpr (Or.inl h1))
        · rcases List.mem_cons.mp h2 with rfl | h3
          · simp
          · exact hnt p (mem_middle_of_side (Or.inr h3))
  | finishOk cap0 clock a r l1 l2 f =>
      exact SvcInv_finish cap n cap0 clock a r l1 l2 _ (by simp) hs
  | finishErr cap0 clock a r l1 l2 e =>
      exact SvcInv_finish cap n cap0 clock a r l1 l2 _ (by simp) hs
  | tick cap0 clock a r q =>
      exact hs

theorem reach_inv (cap n : Nat) {s t : SvcState} (h : Reach s t)
    (hs : SvcInv cap n s) : SvcInv cap n t := by
  induction h with
  | refl w => exact hs
  | head h1 _ ih => exact ih (step_preserves_inv cap n h1 hs)

theorem start_inv (cap n : Nat) : SvcInv cap n (SvcState.start cap n) := by
  rw [SvcState.start, SvcInv_mk]
  have e := countP_replicate_neg isRunning n ReqPhase.waiting rfl
  refine ⟨rfl, by simp, by omega, by omega, ?_⟩
  intro p hp
  have := List.eq_of_mem_replicate hp
  subst this
  simp

theorem exists_waiting (cap : Nat) (l : List ReqPhase)
    (hr : runningCount l ≤ cap) (hlen : l.length = cap + 1)
    (hnd : ∀ p ∈ l, isDone p = false) : ReqPhase.waiting ∈ l := by
  by_contra hw
  have hall : ∀ p ∈ l, isRunning p = true := by
    intro p hp
    cases p with
    | waiting => exact absurd hp hw
    | running => rfl
    | done o =>
        have := hnd _ hp
        simp [isDone] at this
  have : l.countP isRunning = l.length := List.countP_eq_length.mpr hall
  unfold runningCount at hr
  omega

theorem allDone_of_counts (l : List ReqPhase)
    (hw : l.countP isWaiting = 0) (hr : l.countP isRunning = 0) :
    ∀ p ∈ l, isDone p = true := by
  intro p hp
  cases p with
  | waiting =>
      exfalso
      have : 0 < l.countP isWaiting := List.countP_pos_iff.mpr ⟨_, hp, rfl⟩
      omega
  | running =>
      exfalso
      have : 0 < l.countP isRunning := List.countP_pos_iff.mpr ⟨_, hp, rfl⟩
      omega
  | done o => rfl

theorem reach_snoc {s t u : SvcState} (h : Reach s t) :
    Step t u → Reach s u := by
  induction h with
  | refl w => intro hstep; exact Reach.head hstep (Reach.refl u)
  | head h1 _ ih => intro hstep; exact Reach.head h1 (ih hstep)

theorem reach_trans {s t u : SvcState} (h1 : Reach s t) :
    Reach t u → Reach s u := by
  induction h1 with
  | refl w => intro h2; exact h2
  | head hs _ ih => intro h2; exact Reach.head hs (ih h2)

theorem completion (cap : Nat) (hcap : 0 < cap) :
    ∀ (m clock a r : Nat) (l : List ReqPhase),
      l.countP isRunning ≤ cap →
      2 * l.countP isWaiting + l.countP isRunning ≤ m →
      ∃ t : SvcState, Reach ⟨cap, clock, a, r, l⟩ t ∧
        ∀ p ∈ t.reqs, isDone p = true := by
  intro m
  induction m with
  | zero =>
      intro clock a r l hr hm
      refine ⟨⟨cap, clock, a, r, l⟩, Reach.refl _, ?_⟩
      exact allDone_of_counts l (by omega) (by omega)
  | succ m ih =>
      intro clock a r l hr hm
      by_cases hrn : 0 < l.countP isRunning
      · obtain ⟨x, hx, hpx⟩ := List.countP_pos_iff.mp hrn
        have hxr : x = ReqPhase.running := by
          cases x with
          | running => rfl
          | waiting => simp [isRunning] at hpx
          | done o => simp [isRunning] at hpx
        subst hxr
        obtain ⟨l1, l2, rfl⟩ := List.append_of_mem hx
        have e1 := countP_middle_pos isRunning l1 l2 ReqPhase.running rfl
        have e2 := countP_middle_neg isRunning l1 l2
          (ReqPhase.done (ReqOutcome.ok 0)) rfl
        have e3 := countP_middle_neg isWaiting l1 l2 ReqPhase.running rfl
        have e4 := countP_middle_neg isWaiting l1 l2
          (ReqPhase.done (ReqOutcome.ok 0)) rfl
        obtain ⟨t, hreach, hall⟩ := ih clock a (r + 1)
          (l1 ++ ReqPhase.done (ReqOutcome.ok 0) :: l2)
          (by omega) (by omega)
        exact ⟨t, Reach.head (Step.finishOk cap clock a r l1 l2 0) hreach,
          hall⟩
      · by_cases hwn : 0 < l.countP isWaiting
        · obtain ⟨x, hx, hpx⟩ := List.countP_pos_iff.mp hwn
          have hxw : x = ReqPhase.waiting := by
            cases x with
            | waiting => rfl
            | running => simp [isWaiting] at hpx
            | done o => simp [isWaiting] at hpx
          subst hxw
          obtain ⟨l1, l2, rfl⟩ := List.append_of_mem hx
          have e1 := countP_middle_neg isRunning l1 l2 ReqPhase.waiting rfl
          have e2 := countP_middle_pos isRunning l1 l2 ReqPhase.running rfl
          have e3 := countP_middle_pos isWaiting l1 l2 ReqPhase.waiting rfl
          have e4 := countP_middle_neg isWaiting l1 l2 ReqPhase.running rfl
          have hguard :
              runningCount (l1 ++ ReqPhase.waiting :: l2) < cap := by
            unfold runningCount
            omega
          obtain ⟨t, hreach, hall⟩ := ih clock (a + 1) r
            (l1 ++ ReqPhase.running :: l2) (by omega) (by omega)
          exact ⟨t,
            Reach.head (Step.acquire cap clock a r l1 l2 hguard) hreach,
            hall⟩
        · refine ⟨⟨cap, clock, a, r, l⟩, Reach.refl _, ?_⟩
          exact allDone_of_counts l (by omega) (by omega)

/-- Claim C2: against capacity `cap` (default
`Config.MAX_CONCURRENT_REQUESTS = 10`), in every reachable interleaving of
`n` concurrent `predict_stock` calls the number of admission slots held
simultaneously never exceeds `cap`; with `n = cap + 1` calls, at any
instant at which no call has finished at least one call is still waiting
for a slot; and no call is dropped — the population is preserved, and from
any reachable state a schedule exists that completes every call. -/
theorem C2_admission_slots_bounded (cap n : Nat) (s : SvcState)
    (h : Reach (SvcState.start cap n) s) :
    runningCount s.reqs ≤ cap ∧
    s.reqs.length = n ∧
    Config.MAX_CONCURRENT_REQUESTS = 10 ∧
    (n = cap + 1 → (∀ p ∈ s.reqs, isDone p = false) →
      ReqPhase.waiting ∈ s.reqs) ∧
    (0 < cap → ∃ t, Reach s t ∧ ∀ p ∈ t.reqs, isDone p = true) := by
  obtain ⟨sc, sclock, sa, sr, sq⟩ := s
  have hinv := reach_inv cap n h (start_inv cap n)
  rw [SvcInv_mk] at hinv
  obtain ⟨hc, hl, hr, ha, hnt⟩ := hinv
  refine ⟨hr, hl, rfl, ?_, ?_⟩
  · intro hn hnd
    exact exists_waiting cap sq hr (by omega) hnd
  · intro hcap
    rw [show sc = cap from hc]
    exact completion cap hcap
      (2 * sq.countP isWaiting + sq.countP isRunning)
      sclock sa sr sq hr le_rfl

/-- Witness for C2 at a concrete reachable state: two calls against
capacity 1, at the initial state. -/
theorem C2_witness :
    runningCount (SvcState.start 1 2).reqs ≤ 1 ∧
    ReqPhase.waiting ∈ (SvcState.start 1 2).reqs := by
  have h := C2_admission_slots_bounded 1 2 (SvcState.start 1 2)
    (Reach.refl _)
  exact ⟨h.1, h.2.2.2.1 rfl (by decide)⟩

theorem reach_chain_acquire (cap n : Nat) :
    ∀ k, k ≤ cap → k ≤ n →
      Reach (SvcState.start cap n)
        ⟨cap, 0, k, 0, List.replicate k ReqPhase.running ++
          List.replicate (n - k) ReqPhase.waiting⟩ := by
  intro k
  induction k with
  | zero =>
      intro _ _
      exact Reach.refl _
  | succ k ih =>
      intro hkc hkn
      have hmid : List.replicate (n - k) ReqPhase.waiting =
          ReqPhase.waiting ::
            List.replicate (n - (k + 1)) ReqPhase.waiting := by
        have hnk : n - k = (n - (k + 1)) + 1 := by omega
        rw [hnk, List.replicate_succ]
      have hguard : runningCount (List.replicate k ReqPhase.running ++
          ReqPhase.waiting ::
            List.replicate (n - (k + 1)) ReqPhase.waiting) < cap := by
        unfold runningCount
        rw [countP_middle_neg isRunning (List.replicate k ReqPhase.running)
            (List.replicate (n - (k + 1)) ReqPhase.waiting)
            ReqPhase.waiting rfl,
          countP_replicate_pos isRunning k ReqPhase.running rfl,
          countP_replicate_neg isRunning (n - (k + 1)) ReqPhase.waiting rfl]
        omega
      have hstep := Step.acquire cap 0 k 0
        (List.replicate k ReqPhase.running)
        (List.replicate (n - (k + 1)) ReqPhase.waiting) hguard
      have htgt : List.replicate k ReqPhase.running ++
          ReqPhase.running ::
            List.replicate (n - (k + 1)) ReqPhase.waiting =
          List.replicate (k + 1) ReqPhase.running ++
            List.replicate (n - (k + 1)) ReqPhase.waiting := by
        rw [List.replicate_succ' k, List.append_assoc,
          List.singleton_append]
      have hsrc := ih (by omega) (by omega)
      rw [hmid] at hsrc
      rw [htgt] at hstep
      exact reach_snoc hsrc hstep

theorem reach_ticks (cap a r clock : Nat) (q : List ReqPhase) :
    ∀ d, Reach ⟨cap, clock, a, r, q⟩ ⟨cap, clock + d, a, r, q⟩ := by
  intro d
  induction d with
  | zero => exact Reach.refl _
  | succ d ih => exact reach_snoc ih (Step.tick cap (clock + d) a r q)

/-- Claim C3, counterexample: with capacity 10 and eleven concurrent
calls, the run that admits ten of them and then lets 31 seconds pass is
reachable; at that point the clock has exceeded
`Config.REQUEST_TIMEOUT = 30` yet the eleventh call is still suspended at
the semaphore — it has not failed with any error at all, in particular not
with `Timeout`, because `predict_stock` attaches no timeout to slot
acquisition. -/
theorem C3_counterexample :
    Reach (SvcState.start Config.MAX_CONCURRENT_REQUESTS 11) stuckState ∧
    Config.REQUEST_TIMEOUT < stuckState.clock ∧
    stuckState.reqs[10]? = some ReqPhase.waiting ∧
    stuckState.reqs.all (fun p => !(isDone p)) = true := by
  refine ⟨?_, by decide, by decide, by decide⟩
  have h1 := reach_chain_acquire 10 11 10 (by omega) (by omega)
  have h2 := reach_ticks 10 10 0 0
    (List.replicate 10 ReqPhase.running ++
      List.replicate (11 - 10) ReqPhase.waiting) 31
  have h3 := reach_trans h1 h2
  simpa [SvcState.start, stuckState] using h3

/-- Claim C3 (amended): `predict_stock` applies no timeout to slot
acquisition, so no call ever finishes with the `Timeout` outcome
(`Config.REQUEST_TIMEOUT` is declared but unused); the `async with` block
does release the slot exactly once on every exit path — success or
exception — so in every reachable state the instrumented totals satisfy
`acquired = released + running`, and once every call has finished every
acquired slot has been released, returning the admission count to its
pre-call value. -/
theorem C3_amended_no_timeout_and_balanced_release (cap n : Nat)
    (s : SvcState) (h : Reach (SvcState.start cap n) s) :
    (∀ p ∈ s.reqs, p ≠ ReqPhase.done ReqOutcome.timedOut) ∧
    s.acquired = s.released + runningCount s.reqs ∧
    ((∀ p ∈ s.reqs, isDone p = true) → s.released = s.acquired) := by
  obtain ⟨sc, sclock, sa, sr, sq⟩ := s
  have hinv := reach_inv cap n h (start_inv cap n)
  rw [SvcInv_mk] at hinv
  obtain ⟨hc, hl, hr, ha, hnt⟩ := hinv
  refine ⟨hnt, ha, ?_⟩
  intro hdone
  have hrz : sq.countP isRunning = 0 := by
    refine List.countP_eq_zero.mpr ?_
    intro p hp
    have := hdone p hp
    cases p <;> simp_all [isDone, isRunning]
  show sr = sa
  omega

/-- Witness for C3's amended theorem at a concrete reachable state. -/
theorem C3_witness :
    (SvcState.start 1 1).acquired =
      (SvcState.start 1 1).released +
        runningCount (SvcState.start 1 1).reqs :=
  (C3_amended_no_timeout_and_balanced_release 1 1 (SvcState.start 1 1)
    (Reach.refl _)).2.1

end Svc

namespace Seq

/-- Claim C4, evaluated on the code at the failing input: two identical
back-to-back `predict_stock` calls (code 600000, horizon 5) with the
model loaded.  The second call acquires a second admission slot and
invokes the predictor a second time — `predict_stock` consults no cache —
and `Config.CACHE_EXPIRE` is 3600 seconds, not the documented 5 minutes. -/
theorem C4_second_identical_call_recomputes (p : Predictor)
    (sd : StockData) :
    (predict_stock_once (some p) sd ("600000") 5
        (predict_stock_once (some p) sd ("600000") 5
          ⟨0, 0, 0⟩).2).2.slotAcquisitions = 2 ∧
    (predict_stock_once (some p) sd ("600000") 5
        (predict_stock_once (some p) sd ("600000") 5
          ⟨0, 0, 0⟩).2).2.predictorInvocations = 2 ∧
    (predict_stock_once (some p) sd ("600000") 5
        (predict_stock_once (some p) sd ("600000") 5 ⟨0, 0, 0⟩).2).1 =
      Except.ok (p.predictFn sd.data 5) ∧
    Config.CACHE_EXPIRE = 3600 ∧ Config.CACHE_EXPIRE ≠ 5 * 60 :=
  ⟨rfl, rfl, rfl, rfl, by decide⟩

/-- Claim C5, counterexample: a 600-row series exceeds
`Config.MAX_CONTEXT = 512`, yet `predict_stock` hands it to the predictor
and succeeds — it does not fail with `InputTooLong` — and it acquires an
admission slot while doing so. -/
theorem C5_counterexample :
    Config.MAX_CONTEXT < longSeries.length ∧
    (predict_stock_once (some concretePredictor) ⟨longSeries, [], []⟩
        ("600000") 5 ⟨0, 0, 0⟩).1 ≠
      Except.error SvcError.inputTooLong ∧
    (predict_stock_once (some concretePredictor) ⟨longSeries, [], []⟩
        ("600000") 5 ⟨0, 0, 0⟩).1 =
      Except.ok (List.replicate 5 ⟨0, 0, 0, 0, 0⟩) ∧
    (predict_stock_once (some concretePredictor) ⟨longSeries, [], []⟩
        ("600000") 5 ⟨0, 0, 0⟩).2.slotAcquisitions = 1 := by
  refine ⟨?_, ?_, rfl, rfl⟩
  · simp [longSeries, Config.MAX_CONTEXT]
  · simp [predict_stock_once, _sync_predict]

/-- Claim C5 (amended): `predict_stock` performs no input-length
validation — for every input series, in particular any series longer than
the variant's context length `Config.MAX_CONTEXT = 512`, the series is
passed to the predictor unchanged and the call never fails with
`InputTooLong`; and the predictor runs only after an admission slot has
been acquired (the slot counter is incremented on entry). -/
theorem C5_amended_no_length_validation (p : Predictor) (sd : StockData)
    (code : String) (days : Nat) (t : SeqTrace)
    (h : Config.MAX_CONTEXT < sd.data.length) :
    (predict_stock_once (some p) sd code days t).1 =
      Except.ok (p.predictFn sd.data days) ∧
    (predict_stock_once (some p) sd code days t).1 ≠
      Except.error SvcError.inputTooLong ∧
    (predict_stock_once (some p) sd code days t).2.slotAcquisitions =
      t.slotAcquisitions + 1 := by
  refine ⟨rfl, ?_, rfl⟩
  simp [predict_stock_once, _sync_predict]

/-- Witness for C5's amended theorem at the concrete 600-row series. -/
theorem C5_witness :
    (predict_stock_once (some concretePredictor) ⟨longSeries, [], []⟩
        ("600000") 5 ⟨0, 0, 0⟩).2.slotAcquisitions = 0 + 1 :=
  (C5_amended_no_length_validation concretePredictor ⟨longSeries, [], []⟩
    ("600000") 5 ⟨0, 0, 0⟩
    (by simp [longSeries, Config.MAX_CONTEXT])).2.2

end Seq

namespace Lifecycle

theorem LInv_mk (ph : LState) (rs : List Handle) (n : Nat) :
    LInv ⟨ph, rs, n⟩ ↔
      (rs.length ≤ 1 ∧
        ∀ v : String, ph = LState.ready v → ∀ h ∈ rs, h.variant = v) :=
  Iff.rfl

theorem lstep_preserves_inv {s t : LMState} (hst : LStep s t)
    (hs : LInv s) : LInv t := by
  cases hst with
  | beginLoad v rs n hv =>
      rw [LInv_mk] at hs ⊢
      exact ⟨hs.1, by intro v' hv'; cases hv'⟩
  | finishLoad v n =>
      rw [LInv_mk]
      refine ⟨by simp, ?_⟩
      intro v' hv' h hmem
      cases hv'
      rw [List.mem_singleton] at hmem
      rw [hmem]
  | loadFailed v rs n =>
      rw [LInv_mk]
      exact ⟨by simp, by intro v' hv'; cases hv'⟩
  | beginSwitch a b rs n hb =>
      rw [LInv_mk] at hs ⊢
      exact ⟨hs.1, by intro v' hv'; cases hv'⟩
  | switchUnload a b h rs n =>
      rw [LInv_mk] at hs ⊢
      refine ⟨?_, by intro v' hv'; cases hv'⟩
      have := hs.1
      simp only [List.length_cons] at this
      omega
  | switchLoad a b n =>
      rw [LInv_mk]
      refine ⟨by simp, ?_⟩
      intro v' hv' h hmem
      cases hv'
      rw [List.mem_singleton] at hmem
      rw [hmem]
  | switchFailed a b n =>
      rw [LInv_mk]
      exact ⟨by simp, by intro v' hv'; cases hv'⟩
  | reload v rs n =>
      rw [LInv_mk] at hs ⊢
      exact ⟨hs.1, by intro v' hv'; cases hv'⟩

theorem lreach_inv {s t : LMState} (h : LReach s t) (hs : LInv s) :
    LInv t := by
  induction h with
  | refl w => exact hs
  | head h1 _ ih => exact ih (lstep_preserves_inv h1 hs)

theorem start_LInv : LInv LMState.start := by
  rw [LMState.start, LInv_mk]
  exact ⟨by simp, by intro v hv; cases hv⟩

/-- Claim C1 (modelled from the spec): in every state the lifecycle
manager can reach, at most one ModelHandle is resident; and whenever
`status()` reports `Ready(b)`, no handle of any other variant `a` is
resident — in particular after `switchVariant(A)` then `switchVariant(B)`
the handle for `A` has been unloaded by the time `Ready(B)` is
observable, since the step relation only reaches `Ready(b)` through
`Switching` with the old handle already unloaded. -/
theorem C1_at_most_one_resident (s : LMState)
    (h : LReach LMState.start s) :
    s.resident.length ≤ 1 ∧
    ∀ a b : String, status s = LState.ready b → a ≠ b →
      ∀ hd ∈ s.resident, hd.variant ≠ a := by
  obtain ⟨h1, h2⟩ := lreach_inv h start_LInv
  refine ⟨h1, ?_⟩
  intro a b hb hab hd hmem
  have hv := h2 b hb hd hmem
  rw [hv]
  exact fun hba => hab hba.symm

/-- Witness for C1 at a concrete reachable state: load kronos-small,
switch to kronos-base through the full unload-then-load sequence, and
check the invariant at `Ready(kronos-base)`. -/
theorem C1_witness :
    (⟨LState.ready ("kronos-base"), [⟨("kronos-base"), 1⟩], 2⟩
        : LMState).resident.length ≤ 1 ∧
    ∀ hd ∈ (⟨LState.ready ("kronos-base"), [⟨("kronos-base"), 1⟩], 2⟩
        : LMState).resident, hd.variant ≠ "kronos-small" := by
  have hre : LReach LMState.start
      ⟨LState.ready ("kronos-base"), [⟨("kronos-base"), 1⟩], 2⟩ :=
    LReach.head (LStep.beginLoad ("kronos-small") [] 0 (by decide))
      (LReach.head (LStep.finishLoad ("kronos-small") 0)
        (LReach.head
          (LStep.beginSwitch ("kronos-small") ("kronos-base")
            [⟨("kronos-small"), 0⟩] 1 (by decide))
          (LReach.head
            (LStep.switchUnload ("kronos-small") ("kronos-base")
              ⟨("kronos-small"), 0⟩ [] 1)
            (LReach.head
              (LStep.switchLoad ("kronos-small") ("kronos-base") 1)
              (LReach.refl _)))))
  have hc := C1_at_most_one_resident _ hre
  exact ⟨hc.1, hc.2 "kronos-small" ("kronos-base") rfl (by decide)⟩

/-- Claim C6 (modelled from the spec): for a variant identifier not in
the catalog, `switchVariant` returns `InvalidVariant` and returns the
state unchanged — `status()` is unaffected and no load, unload or
transition has occurred. -/
theorem C6_invalid_variant_rejected (s : LMState) (v : String)
    (download loadOk : Bool) (h : v ∉ catalog) :
    switchVariant s v download loadOk =
      (Except.error SwitchError.invalidVariant, s) ∧
    status (switchVariant s v download loadOk).2 = status s := by
  have he : switchVariant s v download loadOk =
      (Except.error SwitchError.invalidVariant, s) := by
    unfold switchVariant
    rw [if_neg h]
  exact ⟨he, by rw [he]⟩

/-- Witness for C6 at a concrete unknown identifier. -/
theorem C6_witness :
    switchVariant LMState.start ("kronos-tiny") false true =
      (Except.error SwitchError.invalidVariant, LMState.start) :=
  (C6_invalid_variant_rejected LMState.start ("kronos-tiny") false true
    (by decide)).1

/-- Claim C7 (modelled from the spec): `switchVariant` invoked (with a
catalog variant) while another lifecycle transition is in progress
returns the `Busy` error at once with the state unchanged — the request
joins no queue behind the in-progress transition. -/
theorem C7_busy_during_transition (s : LMState) (v : String)
    (download loadOk : Bool) (hv : v ∈ catalog)
    (ht : inTransition s.phase = true) :
    switchVariant s v download loadOk =
      (Except.error SwitchError.busy, s) := by
  unfold switchVariant
  rw [if_pos hv, if_pos ht]

/-- Witness for C7: a switch to kronos-base requested while the manager
is still loading kronos-small. -/
theorem C7_witness :
    switchVariant ⟨LState.loading ("kronos-small"), [], 0⟩
        ("kronos-base") false true =
      (Except.error SwitchError.busy,
        ⟨LState.loading ("kronos-small"), [], 0⟩) :=
  C7_busy_during_transition ⟨LState.loading ("kronos-small"), [], 0⟩
    ("kronos-base") false true (by decide) (by decide)

end Lifecycle

end Kronos
